import Mathlib

/-!
Verification of the product-catalog service (`main.py`): the serialization
rules, the filter construction of `GET /api/products`, and the startup
seeding logic.  Store values are modelled as a small JSON-like value type;
Python numbers are modelled by rationals.
-/

namespace ShopCatalog

/-- A JSON/BSON-like value as read from a stored document: Python `None`,
text, a number (modelled by a rational), or a boolean. -/
inductive Val where
  | null : Val
  | str : String → Val
  | num : ℚ → Val
  | bool : Bool → Val
deriving DecidableEq

/-- A stored product document: each field is `none` when the key is absent
from the document, and `some v` (possibly `some Val.null`) when present.
Only the eight keys read by `serialize_product` are modelled. -/
structure Doc where
  _id : Option Val := none
  title : Option Val := none
  description : Option Val := none
  price : Option Val := none
  category : Option Val := none
  in_stock : Option Val := none
  image : Option Val := none
  rating : Option Val := none
deriving DecidableEq

/-- Python `str(v)`: renders `None` as "None" and booleans as "True"/"False";
the rendering of numbers is opaque for our purposes. -/
def pyStr : Val → String
  | Val.null => "None"
  | Val.str s => s
  | Val.num q => toString q
  | Val.bool b => if b then "True" else "False"

/-- Python `float(v)`: succeeds on numbers and booleans, raises (modelled by
`none`) on `None` and on text. -/
def pyFloat : Val → Option ℚ
  | Val.num q => some q
  | Val.bool b => some (if b then 1 else 0)
  | Val.null => none
  | Val.str _ => none

/-- Python `bool(v)` truthiness. -/
def pyBool : Val → Bool
  | Val.null => false
  | Val.bool b => b
  | Val.num q => q != 0
  | Val.str s => s != ""

/-- The dict built by `serialize_product` before response validation. -/
structure Ser where
  id : String
  title : Val
  description : Val
  price : ℚ
  category : Val
  in_stock : Bool
  image : Val
  rating : Option ℚ
deriving DecidableEq

/-- The `rating` entry of `serialize_product`:
`float(doc.get("rating", 0)) if doc.get("rating") is not None else None`;
`none` in the result of this helper models a raised exception. -/
def serRating : Option Val → Option (Option ℚ)
  | none => some none
  | some Val.null => some none
  | some v => (pyFloat v).map some

/-- `serialize_product` from `main.py`; `none` models an exception raised
while coercing a field (e.g. `float` on a non-numeric present value). -/
def serialize_product (doc : Doc) : Option Ser :=
  match pyFloat (doc.price.getD (Val.num 0)), serRating doc.rating with
  | some pr, some rt =>
      some { id := pyStr (doc._id.getD Val.null)
           , title := doc.title.getD Val.null
           , description := doc.description.getD Val.null
           , price := pr
           , category := doc.category.getD (Val.str "")
           , in_stock := pyBool (doc.in_stock.getD (Val.bool true))
           , image := doc.image.getD Val.null
           , rating := rt }
  | _, _ => none

/-- The validated response shape of the `ProductOut` pydantic model. -/
structure ProductOut where
  id : String
  title : String
  description : Option String
  price : ℚ
  category : String
  in_stock : Bool
  image : Option String
  rating : Option ℚ
deriving DecidableEq

/-- Validation of an `Optional[str]` pydantic field: null or text. -/
def optStr : Val → Option (Option String)
  | Val.null => some none
  | Val.str s => some (some s)
  | _ => none

/-- Response validation against `ProductOut`: `title` and `category` must be
text, `description` and `image` must be text or null. -/
def toProductOut (s : Ser) : Option ProductOut :=
  match s.title, s.category, optStr s.description, optStr s.image with
  | Val.str t, Val.str c, some d, some i =>
      some { id := s.id, title := t, description := d, price := s.price
           , category := c, in_stock := s.in_stock, image := i
           , rating := s.rating }
  | _, _, _, _ => none

/-- One response item: serialization followed by response-model validation;
`none` models a 500 raised by either step. -/
def serializeValidate (d : Doc) : Option ProductOut :=
  (serialize_product d).bind toProductOut

/-- The response body: every retrieved document serialized and validated in
order; any per-item failure fails the whole response. -/
def serializeAll : List Doc → Option (List ProductOut)
  | [] => some []
  | d :: ds =>
      match serializeValidate d, serializeAll ds with
      | some o, some os => some (o :: os)
      | _, _ => none

/-- One atom of a pattern: the `.` wildcard or a literal character. -/
inductive RAtom where
  | dot : RAtom
  | lit : Char → RAtom
deriving DecidableEq

/-- A parsed pattern: optional start/end anchors around a list of atoms. -/
structure RPattern where
  aStart : Bool
  aEnd : Bool
  atoms : List RAtom
deriving DecidableEq

/-- Modelled from the spec: an atom of the `$regex` pattern text; `.` is the
any-character wildcard, every other character is taken literally. -/
def toAtom (c : Char) : RAtom :=
  if c = '.' then RAtom.dot else RAtom.lit c

/-- Modelled from the spec: parse a `$regex` pattern — a leading `^` anchors
at the start, a trailing `$` anchors at the end, the rest is atoms. -/
def parsePattern (p : List Char) : RPattern :=
  let aS : Bool := p.head? = some '^'
  let p1 := if aS then p.tail else p
  let aE : Bool := p1.getLast? = some '$'
  let p2 := if aE then p1.dropLast else p1
  ⟨aS, aE, p2.map toAtom⟩

/-- Case-insensitive match of one atom against one character (`$options: "i"`). -/
def atomMatches (a : RAtom) (c : Char) : Bool :=
  match a with
  | RAtom.dot => true
  | RAtom.lit l => l.toLower = c.toLower

/-- Match a run of atoms against a prefix of the text, returning the
remaining text on success. -/
def matchAtoms : List RAtom → List Char → Option (List Char)
  | [], s => some s
  | _ :: _, [] => none
  | a :: as, c :: cs => if atomMatches a c then matchAtoms as cs else none

/-- Match the atoms at the current position; with an end anchor the atoms
must consume the whole remaining text. -/
def matchEnd (atoms : List RAtom) (aEnd : Bool) (s : List Char) : Bool :=
  match matchAtoms atoms s with
  | none => false
  | some rest => !aEnd || rest.isEmpty

/-- Try to match the atoms starting at each position of the text. -/
def searchFrom (atoms : List RAtom) (aEnd : Bool) : List Char → Bool
  | [] => matchEnd atoms aEnd []
  | c :: t => matchEnd atoms aEnd (c :: t) || searchFrom atoms aEnd t

/-- Modelled from the spec: MongoDB case-insensitive `$regex` matching, for
the constructs the filters of the service produce (literal characters, the `.`
wildcard and the `^`/`$` anchors; an unanchored pattern matches at any
position, i.e. substring semantics). -/
def regexMatchCI (pat : String) (s : String) : Bool :=
  let r := parsePattern pat.data
  if r.aStart then matchEnd r.atoms r.aEnd s.data else searchFrom r.atoms r.aEnd s.data

/-- Modelled from the spec: a `$regex` criterion on a document field matches
only when the field is present with a text value matching the pattern. -/
def valRegexMatch (pat : String) (v : Option Val) : Bool :=
  match v with
  | some (Val.str s) => regexMatchCI pat s
  | _ => false

/-- The filter dict built by `list_products`: an optional `$or` of
title/description `$regex` criteria, and an optional anchored category
`$regex` criterion. -/
structure Filter where
  qOr : Option String
  categoryPattern : Option String
deriving DecidableEq

/-- Filter construction of `list_products`: a truthy `q` adds the raw text
as a pattern over title and description; a truthy `category` adds the
anchored pattern `"^" + category + "$"`. -/
def buildFilter (q category : Option String) : Filter :=
  ⟨ match q with
    | some s => if s = "" then none else some s
    | none => none
  , match category with
    | some c => if c = "" then none else some ("^" ++ c ++ "$")
    | none => none ⟩

/-- Modelled from the spec: whether a stored document satisfies the filter —
the `$or` clause requires title or description to match, the category
clause requires the category field to match; both apply conjointly. -/
def docMatches (f : Filter) (d : Doc) : Bool :=
  (match f.qOr with
   | none => true
   | some pat => valRegexMatch pat d.title || valRegexMatch pat d.description) &&
  (match f.categoryPattern with
   | none => true
   | some pat => valRegexMatch pat d.category)

/-- Modelled from the spec: `get_documents(collection, filter, limit)`
returns up to `limit` matching records, in collection order. -/
def get_documents (coll : List Doc) (filt : Filter) (limit : ℕ) : List Doc :=
  (coll.filter (docMatches filt)).take limit

/-- The `limit` query parameter defaults to 24 when absent. -/
def defaultLimit : ℕ := 24

/-- `GET /api/products` (`list_products` in `main.py`): fail when the store
handle is unset, otherwise build the filter, retrieve up to `limit`
documents and serialize them; `Except.error` models an HTTP 500. -/
def list_products (db : Option (List Doc)) (q category : Option String)
    (limit : ℕ) : Except String (List ProductOut) :=
  match db with
  | none => Except.error "Database not available"
  | some coll =>
      match serializeAll (get_documents coll (buildFilter q category) limit) with
      | none => Except.error "response validation failed"
      | some outs => Except.ok outs

/-- One hardcoded seed template of `seed_products_on_startup` (every
template carries all eight keys). -/
structure SeedTemplate where
  title : String
  description : String
  price : ℚ
  category : String
  in_stock : Bool
  image : String
  rating : ℚ
deriving DecidableEq

/-- The five `sample_products` templates of `main.py`. -/
def sample_products : List SeedTemplate :=
  [ ⟨"EchoWave Smart Speaker",
     "Hands-free voice control with immersive 360° sound.",
     79.99, "Electronics", true,
     "https://images.unsplash.com/photo-1518441902113-c1d4f5a9cfe0?q=80&w=1200&auto=format&fit=crop",
     4.6⟩
  , ⟨"AeroFlex Running Shoes",
     "Breathable, ultra-light performance running shoes.",
     129.0, "Fashion", true,
     "https://images.unsplash.com/photo-1542291026-7eec264c27ff?q=80&w=1200&auto=format&fit=crop",
     4.4⟩
  , ⟨"LumaGlow Desk Lamp",
     "Minimal LED lamp with wireless charging base.",
     59.5, "Home", true,
     "https://images.unsplash.com/photo-1507473885765-e6ed057f782c?q=80&w=1200&auto=format&fit=crop",
     4.7⟩
  , ⟨"Nimbus Pro Backpack",
     "Water-resistant tech backpack with 16 laptop sleeve.",
     98.0, "Accessories", true,
     "https://images.unsplash.com/photo-1547949003-9792a18a2601?q=80&w=1200&auto=format&fit=crop",
     4.5⟩
  , ⟨"BrewCraft Coffee Maker",
     "Programmable pour-over style coffee maker.",
     149.99, "Kitchen", true,
     "https://images.unsplash.com/photo-1509460913899-35e6c0abf9b0?q=80&w=1200&auto=format&fit=crop",
     4.3⟩ ]

/-- Modelled from the spec: the external validation schema (`schemas.Product`)
accepts the fields title, description, price, category, in_stock and rejects
a record violating the data model — an empty title or a negative price. -/
def validateProduct (t : SeedTemplate) : Bool :=
  t.title != "" && decide (0 ≤ t.price)

/-- The document submitted for insertion: the validated fields together with
the image and rating of the template; the store assigns `_id`. -/
def mkInsertDoc (t : SeedTemplate) : Doc :=
  { title := some (Val.str t.title)
  , description := some (Val.str t.description)
  , price := some (Val.num t.price)
  , category := some (Val.str t.category)
  , in_stock := some (Val.bool t.in_stock)
  , image := some (Val.str t.image)
  , rating := some (Val.num t.rating) }

/-- Modelled from the spec: `create_document(collection, record)` appends the
record (with a store-assigned identifier) to the collection; the collaborator
may fail, which the oracle argument `ok` injects as `none` (an exception). -/
def create_document (ok : Bool) (coll : List Doc) (d : Doc) : Option (List Doc) :=
  if ok then some (coll ++ [{ d with _id := some (Val.str (toString coll.length)) }]) else none

/-- One iteration of the seeding loop: validate, then insert; any failure of
either step leaves the collection unchanged (the `except: continue`). -/
def seedItem (okFn : SeedTemplate → Bool) (coll : List Doc) (t : SeedTemplate) : List Doc :=
  if validateProduct t then
    match create_document (okFn t) coll (mkInsertDoc t) with
    | some coll2 => coll2
    | none => coll
  else coll

/-- The `for p in sample_products` loop, processing each template in order. -/
def seedLoop (okFn : SeedTemplate → Bool) : List SeedTemplate → List Doc → List Doc
  | [], coll => coll
  | t :: ts, coll => seedLoop okFn ts (seedItem okFn coll t)

/-- `seed_products_on_startup` from `main.py`: do nothing when the store
handle is unset; insert the seed templates only when the product collection
counts zero records.  `okFn` is the per-item insertion-failure oracle of the
store collaborator. -/
def seed_products_on_startup (okFn : SeedTemplate → Bool)
    (db : Option (List Doc)) : Option (List Doc) :=
  match db with
  | none => none
  | some coll =>
      if coll.length = 0 then some (seedLoop okFn sample_products coll) else some coll

/-- The always-succeeding insertion oracle. -/
def allOk : SeedTemplate → Bool := fun _ => true

/-- Case-insensitive equality of two character lists — the notion the spec uses for
"compared case-insensitively, equals exactly (full-string anchor)". -/
def lowerEq (a b : List Char) : Bool :=
  decide (a.map Char.toLower = b.map Char.toLower)

/-- Case-insensitive "the needle is a leading part of the haystack". -/
def startsWithCI : List Char → List Char → Bool
  | [], _ => true
  | _ :: _, [] => false
  | n :: ns, h :: hs => (n.toLower = h.toLower) && startsWithCI ns hs

/-- Case-insensitive substring containment — the notion the spec uses for
"contains `query` as a case-insensitive substring". -/
def containsCI : List Char → List Char → Bool
  | n, [] => startsWithCI n []
  | n, h :: hs => startsWithCI n (h :: hs) || containsCI n hs

/-- The standard regex metacharacters. -/
def metaChars : List Char :=
  ['.', '^', '$', '*', '+', '?', '(', ')', '[', ']', '|', '\\',
   Char.ofNat 123, Char.ofNat 125]

/-- Whether a character is a regex metacharacter. -/
def isMetaChar (c : Char) : Bool := metaChars.contains c

/-- Whether a string is free of regex metacharacters. -/
def noMeta (s : String) : Bool := s.data.all (fun c => !isMetaChar c)

/-- The category criterion as the spec words it: the category field is present with text
case-insensitively equal to the query text. -/
def catFieldEqCI (c : String) (d : Doc) : Bool :=
  match d.category with
  | some (Val.str s) => lowerEq c.data s.data
  | _ => false

/-- The free-text criterion as the spec words it on one field: present text containing the
query as a case-insensitive substring. -/
def fieldContainsCI (q : String) (v : Option Val) : Bool :=
  match v with
  | some (Val.str s) => containsCI q.data s.data
  | _ => false

/-- A pre-existing store record, for idempotence tests. -/
def dummyDoc : Doc :=
  ⟨some (Val.str "0"), some (Val.str "Existing"), none, some (Val.num 1),
   some (Val.str "Misc"), none, none, none⟩

/-- A stored record carrying a negative price. -/
def negPriceDoc : Doc :=
  ⟨some (Val.str "p1"), some (Val.str "Widget"), none, some (Val.num (-1)),
   some (Val.str "Misc"), none, none, none⟩

/-- The serialization of `negPriceDoc`. -/
def negPriceOut : ProductOut := ⟨"p1", "Widget", none, -1, "Misc", true, none, none⟩

/-- A stored record in category "Electronics". -/
def elecDoc : Doc :=
  ⟨some (Val.str "e1"), some (Val.str "EchoWave"), none, some (Val.num 80),
   some (Val.str "Electronics"), some (Val.bool true), none, none⟩

/-- The serialization of `elecDoc`. -/
def elecOut : ProductOut := ⟨"e1", "EchoWave", none, 80, "Electronics", true, none, none⟩

/-- A stored record whose title and description both contain "lamp". -/
def lampDoc : Doc :=
  ⟨some (Val.str "l1"), some (Val.str "LumaGlow Desk Lamp"),
   some (Val.str "Minimal LED lamp with wireless charging base."),
   some (Val.num 60), some (Val.str "Home"), none, none, none⟩

/-- The serialization of `lampDoc`. -/
def lampOut : ProductOut :=
  ⟨"l1", "LumaGlow Desk Lamp", some "Minimal LED lamp with wireless charging base.",
   60, "Home", true, none, none⟩

/-- A stored record whose category is the single letter "X". -/
def xDoc : Doc :=
  ⟨some (Val.str "x1"), some (Val.str "Xitem"), none, some (Val.num 1),
   some (Val.str "X"), none, none, none⟩

/-- The serialization of `xDoc`. -/
def xOut : ProductOut := ⟨"x1", "Xitem", none, 1, "X", true, none, none⟩

/-- A stored record lacking price, category, in_stock and rating. -/
def defaultsDoc : Doc :=
  ⟨some (Val.str "d1"), some (Val.str "Bare"), none, none, none, none, none, none⟩

/-- The serialization dict of `defaultsDoc`. -/
def defaultsSer : Ser := ⟨"d1", Val.str "Bare", Val.null, 0, Val.str "", true, Val.null, none⟩

/-- A stored record whose rating key is present with numeric value 0. -/
def zeroRatingDoc : Doc :=
  ⟨some (Val.str "r1"), some (Val.str "Rated"), none, some (Val.num 5),
   some (Val.str "Misc"), none, none, some (Val.num 0)⟩

/-- The serialization dict of `zeroRatingDoc`. -/
def zeroRatingSer : Ser :=
  ⟨"r1", Val.str "Rated", Val.null, 5, Val.str "Misc", true, Val.null, some 0⟩

/-- A seed template passing validation. -/
def goodSeedA : SeedTemplate := ⟨"Good A", "a", 5, "Cat", true, "img", 4⟩

/-- Another seed template passing validation. -/
def goodSeedB : SeedTemplate := ⟨"Good B", "b", 6, "Cat", true, "img", 4⟩

/-- A seed template rejected by validation (empty title). -/
def badSeed : SeedTemplate := ⟨"", "bad", 1, "Cat", true, "img", 1⟩

theorem matchEnd_lits_true (n s : List Char) :
    matchEnd (n.map RAtom.lit) true s = lowerEq n s := by
  induction n generalizing s with
  | nil =>
    cases s <;> simp [matchEnd, matchAtoms, lowerEq, List.isEmpty]
  | cons c t ih =>
    cases s with
    | nil => simp [matchEnd, matchAtoms, lowerEq]
    | cons d u =>
      by_cases hc : c.toLower = d.toLower
      · simp [matchEnd, matchAtoms, atomMatches, hc, lowerEq] at ih ⊢
        exact ih u
      · simp [matchEnd, matchAtoms, atomMatches, hc, lowerEq]

theorem matchEnd_lits_false (n s : List Char) :
    matchEnd (n.map RAtom.lit) false s = startsWithCI n s := by
  induction n generalizing s with
  | nil => cases s <;> simp [matchEnd, matchAtoms, startsWithCI]
  | cons c t ih =>
    cases s with
    | nil => simp [matchEnd, matchAtoms, startsWithCI]
    | cons d u =>
      by_cases hc : c.toLower = d.toLower
      · simp [matchEnd, matchAtoms, atomMatches, hc, startsWithCI] at ih ⊢
        exact ih u
      · simp [matchEnd, matchAtoms, atomMatches, hc, startsWithCI]

theorem searchFrom_lits (n s : List Char) :
    searchFrom (n.map RAtom.lit) false s = containsCI n s := by
  induction s with
  | nil => simp [searchFrom, containsCI, matchEnd_lits_false]
  | cons c t ih => simp [searchFrom, containsCI, matchEnd_lits_false, ih]

theorem parsePattern_lit (l : List Char) (h : ∀ c ∈ l, isMetaChar c = false) :
    parsePattern l = ⟨false, false, l.map RAtom.lit⟩ := by
  have hne : ∀ c ∈ l, c ≠ '^' ∧ c ≠ '$' ∧ c ≠ '.' := by
    intro c hc
    have hm := h c hc
    refine ⟨?_, ?_, ?_⟩ <;> intro he <;> subst he <;> revert hm <;> decide
  have hhead : (decide (l.head? = some '^')) = false := by
    cases l with
    | nil => rfl
    | cons c t =>
      have := (hne c (by simp)).1
      simp [List.head?, this]
  have hlast : (decide (l.getLast? = some '$')) = false := by
    cases hg : l.getLast? with
    | none => simp
    | some x =>
      obtain ⟨hnil, hx⟩ := List.mem_getLast?_eq_getLast (by rw [hg]; rfl)
      have hmem : x ∈ l := hx ▸ List.getLast_mem hnil
      simp [(hne x hmem).2.1]
  have hmap : l.map toAtom = l.map RAtom.lit :=
    List.map_congr_left (fun c hc => by simp [toAtom, (hne c hc).2.2])
  simp [parsePattern, hhead, hlast, hmap]

theorem parsePattern_anchor (l : List Char) (h : ∀ c ∈ l, isMetaChar c = false) :
    parsePattern ('^' :: (l ++ ['$'])) = ⟨true, true, l.map RAtom.lit⟩ := by
  have hmap : l.map toAtom = l.map RAtom.lit :=
    List.map_congr_left (fun c hc => by
      have hm := h c hc
      have : c ≠ '.' := by intro he; subst he; revert hm; decide
      simp [toAtom, this])
  simp [parsePattern, List.getLast?_concat, List.dropLast_concat, hmap]

theorem noMeta_forall {s : String} (h : noMeta s = true) :
    ∀ c ∈ s.data, isMetaChar c = false := by
  intro c hc
  have := (List.all_eq_true.mp h) c hc
  simpa using this

theorem regexMatchCI_litSubstr (q s : String) (h : noMeta q = true) :
    regexMatchCI q s = containsCI q.data s.data := by
  unfold regexMatchCI
  rw [parsePattern_lit q.data (noMeta_forall h)]
  simp [searchFrom_lits]

theorem regexMatchCI_anchor (c s : String) (h : noMeta c = true) :
    regexMatchCI ("^" ++ c ++ "$") s = lowerEq c.data s.data := by
  unfold regexMatchCI
  have hdata : ("^" ++ c ++ "$").data = '^' :: (c.data ++ ['$']) := by
    simp [String.data_append]
  rw [hdata, parsePattern_anchor c.data (noMeta_forall h)]
  simp [matchEnd_lits_true]

theorem docMatches_category (c : String) (hc : c ≠ "") (h : noMeta c = true) (d : Doc) :
    docMatches (buildFilter none (some c)) d = catFieldEqCI c d := by
  simp only [docMatches, buildFilter, hc, if_neg hc]
  unfold catFieldEqCI valRegexMatch
  cases hdc : d.category with
  | none => simp
  | some v => cases v <;> simp [regexMatchCI_anchor _ _ h]

theorem docMatches_q (q : String) (hq : q ≠ "") (h : noMeta q = true) (d : Doc) :
    docMatches (buildFilter (some q) none) d =
      (fieldContainsCI q d.title || fieldContainsCI q d.description) := by
  simp only [docMatches, buildFilter, if_neg hq]
  have harm : ∀ v : Option Val, valRegexMatch q v = fieldContainsCI q v := by
    intro v
    unfold valRegexMatch fieldContainsCI
    cases v with
    | none => simp
    | some w => cases w <;> simp [regexMatchCI_litSubstr _ _ h]
  simp [harm]

theorem list_products_ok {coll : List Doc} {q c : Option String} {limit : ℕ}
    {outs : List ProductOut}
    (h : list_products (some coll) q c limit = Except.ok outs) :
    serializeAll (get_documents coll (buildFilter q c) limit) = some outs := by
  unfold list_products at h
  split at h
  · exact absurd h (by simp)
  · next c2 heq =>
    injection heq with heq
    subst heq
    cases hsa : serializeAll (get_documents coll (buildFilter q c) limit) with
    | none => rw [hsa] at h; exact absurd h (by simp)
    | some outs2 =>
      rw [hsa] at h
      simp only [] at h
      injection h with h
      rw [h]

theorem serializeAll_mem {ds : List Doc} {outs : List ProductOut}
    (h : serializeAll ds = some outs) {o : ProductOut} (ho : o ∈ outs) :
    ∃ d ∈ ds, serializeValidate d = some o := by
  induction ds generalizing outs with
  | nil =>
    simp [serializeAll] at h
    subst h
    simp at ho
  | cons d ds ih =>
    unfold serializeAll at h
    split at h
    · next o1 os h1 h2 =>
      injection h with h
      subst h
      rcases List.mem_cons.mp ho with he | hm
      · exact ⟨d, by simp, he ▸ h1⟩
      · obtain ⟨d2, hd2, hs2⟩ := ih h2 hm
        exact ⟨d2, by simp [hd2], hs2⟩
    · exact absurd h (by simp)

theorem serializeAll_length {ds : List Doc} {outs : List ProductOut}
    (h : serializeAll ds = some outs) : outs.length = ds.length := by
  induction ds generalizing outs with
  | nil => simp [serializeAll] at h; subst h; rfl
  | cons d ds ih =>
    unfold serializeAll at h
    split at h
    · next o1 os h1 h2 =>
      injection h with h
      subst h
      simp [ih h2]
    · exact absurd h (by simp)

theorem mem_get_documents {coll : List Doc} {f : Filter} {limit : ℕ} {d : Doc}
    (h : d ∈ get_documents coll f limit) : d ∈ coll ∧ docMatches f d = true := by
  unfold get_documents at h
  have h2 := List.take_subset limit (coll.filter (docMatches f)) h
  exact List.mem_filter.mp h2

theorem serialize_product_fields {d : Doc} {ser : Ser}
    (h : serialize_product d = some ser) :
    ser.id = pyStr (d._id.getD Val.null) ∧
    ser.title = d.title.getD Val.null ∧
    ser.description = d.description.getD Val.null ∧
    pyFloat (d.price.getD (Val.num 0)) = some ser.price ∧
    ser.category = d.category.getD (Val.str "") ∧
    ser.in_stock = pyBool (d.in_stock.getD (Val.bool true)) ∧
    ser.image = d.image.getD Val.null ∧
    serRating d.rating = some ser.rating := by
  unfold serialize_product at h
  split at h
  · next pr rt hpf hsr =>
    injection h with h
    subst h
    exact ⟨rfl, rfl, rfl, hpf, rfl, rfl, rfl, hsr⟩
  · exact absurd h (by simp)

theorem toProductOut_fields {ser : Ser} {o : ProductOut}
    (h : toProductOut ser = some o) :
    ser.title = Val.str o.title ∧
    ser.category = Val.str o.category ∧
    optStr ser.description = some o.description ∧
    optStr ser.image = some o.image ∧
    ser.price = o.price ∧
    ser.in_stock = o.in_stock ∧
    ser.rating = o.rating ∧
    ser.id = o.id := by
  unfold toProductOut at h
  split at h
  · next t c dopt iopt ht hc hd hi =>
    injection h with h
    subst h
    exact ⟨ht, hc, hd, hi, rfl, rfl, rfl, rfl⟩
  all_goals exact absurd h (by simp)

theorem serializeValidate_inv {d : Doc} {o : ProductOut}
    (h : serializeValidate d = some o) :
    d.title = some (Val.str o.title) ∧
    (d.category = some (Val.str o.category) ∨ (d.category = none ∧ o.category = "")) ∧
    (∀ s, d.description = some (Val.str s) → o.description = some s) ∧
    (d.price = none → o.price = 0) ∧
    (∀ r, d.price = some (Val.num r) → o.price = r) := by
  unfold serializeValidate at h
  obtain ⟨ser, hs, hv⟩ := Option.bind_eq_some.mp h
  obtain ⟨hid, hti, hde, hpr, hca, hin, him, hra⟩ := serialize_product_fields hs
  obtain ⟨ht2, hc2, hd2, hi2, hp2, _, _, _⟩ := toProductOut_fields hv
  refine ⟨?_, ?_, ?_, ?_, ?_⟩
  · have hth := hti.symm.trans ht2
    cases hdt : d.title with
    | none => rw [hdt] at hth; simp at hth
    | some v => rw [hdt] at hth; simp at hth; rw [hth]
  · have hch := hca.symm.trans hc2
    cases hdc : d.category with
    | none =>
      rw [hdc] at hch
      simp at hch
      exact Or.inr ⟨rfl, hch.symm⟩
    | some v =>
      rw [hdc] at hch
      simp at hch
      exact Or.inl (by rw [hch])
  · intro s hds
    have hdh := hde.symm
    rw [hds] at hdh
    simp at hdh
    rw [← hdh] at hd2
    simp [optStr] at hd2
    exact hd2.symm
  · intro hdp
    rw [hdp] at hpr
    simp [pyFloat] at hpr
    rw [← hp2]
    exact hpr.symm
  · intro r hdp
    rw [hdp] at hpr
    simp [pyFloat] at hpr
    rw [← hp2]
    exact hpr.symm

/-- C1: for every request to `GET /api/products`, if the store handle is
unset the operation fails with a 500-equivalent carrying exactly the message
"Database not available", and no list of records is returned. -/
theorem C1_store_unavailable (q category : Option String) (limit : ℕ) :
    list_products none q category limit = Except.error "Database not available" := rfl

/-- C6: serialization default rules — a stored record lacking `rating`
serializes with null rating; lacking `price` with the number 0.0; lacking
`category` with empty text; lacking `in_stock` with true. -/
theorem C6_default_serialization (d : Doc) (ser : Ser)
    (h : serialize_product d = some ser) :
    (d.rating = none → ser.rating = none) ∧
    (d.price = none → ser.price = 0) ∧
    (d.category = none → ser.category = Val.str "") ∧
    (d.in_stock = none → ser.in_stock = true) := by
  obtain ⟨hid, hti, hde, hpr, hca, hin, him, hra⟩ := serialize_product_fields h
  refine ⟨?_, ?_, ?_, ?_⟩
  · intro hr
    rw [hr] at hra
    simp [serRating] at hra
    exact hra.symm
  · intro hp
    rw [hp] at hpr
    simp [pyFloat] at hpr
    exact hpr.symm
  · intro hc
    rw [hc] at hca
    simpa using hca
  · intro hi
    rw [hi] at hin
    simpa [pyBool] using hin

/-- C6 witness: the defaults evaluated on a record lacking all four fields. -/
theorem C6_default_serialization_witness :
    defaultsSer.rating = none ∧ defaultsSer.price = 0 ∧
    defaultsSer.category = Val.str "" ∧ defaultsSer.in_stock = true := by
  obtain ⟨h1, h2, h3, h4⟩ := C6_default_serialization defaultsDoc defaultsSer (by decide)
  exact ⟨h1 rfl, h2 rfl, h3 rfl, h4 rfl⟩

/-- C10: the null-vs-default rule for `rating` keys on presence, not
truthiness — a present numeric 0 rating serializes as the number 0.0, and
only an absent or null rating serializes as null. -/
theorem C10_rating_presence (d : Doc) (ser : Ser)
    (h : serialize_product d = some ser) :
    (d.rating = some (Val.num 0) → ser.rating = some 0) ∧
    (d.rating = none ∨ d.rating = some Val.null → ser.rating = none) ∧
    (ser.rating = none → d.rating = none ∨ d.rating = some Val.null) := by
  obtain ⟨-, -, -, -, -, -, -, hra⟩ := serialize_product_fields h
  refine ⟨?_, ?_, ?_⟩
  · intro hr
    rw [hr] at hra
    simp [serRating, pyFloat] at hra
    exact hra.symm
  · rintro (hr | hr) <;> rw [hr] at hra <;> simp [serRating] at hra <;> exact hra.symm
  · intro hnone
    rw [hnone] at hra
    cases hr : d.rating with
    | none => exact Or.inl rfl
    | some v =>
      rw [hr] at hra
      cases v with
      | null => exact Or.inr rfl
      | str s => simp [serRating, pyFloat] at hra
      | num q => simp [serRating, pyFloat] at hra
      | bool b => simp [serRating, pyFloat] at hra

/-- C10 witness: a record whose rating key holds the number 0 serializes
with rating 0.0. -/
theorem C10_rating_presence_witness : zeroRatingSer.rating = some 0 :=
  (C10_rating_presence zeroRatingDoc zeroRatingSer (by decide)).1 rfl

/-- C3: the category criterion is an exact, case-insensitive, full-string
match — a query with category="Electronics" never returns a record whose
category field is "Electronics & More", and a query with
category="electronics" does return a record whose category is "Electronics". -/
theorem C3_category_exact :
    (∀ (coll : List Doc) (limit : ℕ) (outs : List ProductOut),
        list_products (some coll) none (some "Electronics") limit = Except.ok outs →
        ∀ o ∈ outs, o.category ≠ "Electronics & More") ∧
    (∀ d : Doc, d.category = some (Val.str "Electronics") →
        docMatches (buildFilter none (some "electronics")) d = true) ∧
    list_products (some [elecDoc]) none (some "electronics") 24 = Except.ok [elecOut] := by
  refine ⟨?_, ?_, ?_⟩
  · intro coll limit outs h o ho hcontra
    obtain ⟨d, hd, hsv⟩ := serializeAll_mem (list_products_ok h) ho
    obtain ⟨hdcoll, hm⟩ := mem_get_documents hd
    rw [docMatches_category "Electronics" (by decide) (by decide)] at hm
    obtain ⟨-, hcat, -, -, -⟩ := serializeValidate_inv hsv
    rcases hcat with hcat | ⟨hnone, hemp⟩
    · rw [hcontra] at hcat
      simp [catFieldEqCI, hcat] at hm
      exact absurd hm (by decide)
    · rw [hemp] at hcontra
      exact absurd hcontra (by decide)
  · intro d hd
    rw [docMatches_category "electronics" (by decide) (by decide)]
    unfold catFieldEqCI
    rw [hd]
    decide
  · rfl

/-- C3 witness: the universal parts applied at a concrete store and record. -/
theorem C3_category_exact_witness :
    elecOut.category ≠ "Electronics & More" ∧
    docMatches (buildFilter none (some "electronics")) elecDoc = true :=
  ⟨C3_category_exact.1 [elecDoc] 24 [elecOut] (by rfl) elecOut (by simp),
   C3_category_exact.2.1 elecDoc (by decide)⟩

/-- C4: the free-text criterion is a case-insensitive substring match over
title OR description — every record returned for q="lamp" contains "lamp"
case-insensitively in its title or description, every record whose title or
description contains it matches the filter, and a record titled
"LumaGlow Desk Lamp" is returned end to end. -/
theorem C4_substring_query :
    (∀ (coll : List Doc) (limit : ℕ) (outs : List ProductOut),
        list_products (some coll) (some "lamp") none limit = Except.ok outs →
        ∀ o ∈ outs,
          containsCI "lamp".data o.title.data = true ∨
          ∃ s, o.description = some s ∧ containsCI "lamp".data s.data = true) ∧
    (∀ d : Doc,
        (fieldContainsCI "lamp" d.title || fieldContainsCI "lamp" d.description) = true →
        docMatches (buildFilter (some "lamp") none) d = true) ∧
    list_products (some [lampDoc]) (some "lamp") none 24 = Except.ok [lampOut] := by
  refine ⟨?_, ?_, ?_⟩
  · intro coll limit outs h o ho
    obtain ⟨d, hd, hsv⟩ := serializeAll_mem (list_products_ok h) ho
    obtain ⟨hdcoll, hm⟩ := mem_get_documents hd
    rw [docMatches_q "lamp" (by decide) (by decide)] at hm
    obtain ⟨hti, -, hde, -, -⟩ := serializeValidate_inv hsv
    simp only [Bool.or_eq_true] at hm
    rcases hm with hm | hm
    · left
      unfold fieldContainsCI at hm
      rw [hti] at hm
      exact hm
    · right
      unfold fieldContainsCI at hm
      cases hdd : d.description with
      | none => rw [hdd] at hm; exact absurd hm (by simp)
      | some v =>
        rw [hdd] at hm
        cases v with
        | str s => exact ⟨s, hde s hdd, hm⟩
        | null => exact absurd hm (by simp)
        | num q2 => exact absurd hm (by simp)
        | bool b => exact absurd hm (by simp)
  · intro d hmatch
    rw [docMatches_q "lamp" (by decide) (by decide)]
    exact hmatch
  · rfl

/-- C4 witness: the universal parts applied at a concrete store and record. -/
theorem C4_substring_query_witness :
    (containsCI "lamp".data lampOut.title.data = true ∨
     ∃ s, lampOut.description = some s ∧ containsCI "lamp".data s.data = true) ∧
    docMatches (buildFilter (some "lamp") none) lampDoc = true :=
  ⟨C4_substring_query.1 [lampDoc] 24 [lampOut] (by rfl) lampOut (by simp),
   C4_substring_query.2.1 lampDoc (by decide)⟩

/-- C5: for every valid limit in [1, 100] (with 24 the declared default),
the response has length at most `limit` regardless of how many records
match, and it is the in-order serialization of the retrieval of the collaborator — order is preserved. -/
theorem C5_limit_bound (coll : List Doc) (q c : Option String) (limit : ℕ)
    (h1 : 1 ≤ limit) (h2 : limit ≤ 100) (outs : List ProductOut)
    (h : list_products (some coll) q c limit = Except.ok outs) :
    outs.length ≤ limit ∧
    serializeAll (get_documents coll (buildFilter q c) limit) = some outs ∧
    defaultLimit = 24 := by
  have hok := list_products_ok h
  refine ⟨?_, hok, rfl⟩
  rw [serializeAll_length hok]
  unfold get_documents
  exact List.length_take_le limit _

/-- C5 witness: the bound applied at a concrete store and limit. -/
theorem C5_limit_bound_witness :
    [elecOut].length ≤ 24 ∧
    serializeAll (get_documents [elecDoc] (buildFilter none none) 24) = some [elecOut] ∧
    defaultLimit = 24 :=
  C5_limit_bound [elecDoc] none none 24 (by decide) (by decide) [elecOut] (by rfl)

/-- C9: the category filter interpolates the caller text unescaped into an
anchored pattern — the input "." returns a record whose category "X" is not
case-insensitively equal to "." — while for metacharacter-free inputs the
filter coincides with literal case-insensitive full-string equality. -/
theorem C9_unescaped_category_pattern :
    (list_products (some [xDoc]) none (some ".") 24 = Except.ok [xOut] ∧
     lowerEq ".".data "X".data = false) ∧
    (∀ cat : String, cat ≠ "" → noMeta cat = true → ∀ d : Doc,
        docMatches (buildFilter none (some cat)) d = catFieldEqCI cat d) := by
  refine ⟨⟨by rfl, by decide⟩, ?_⟩
  intro cat hne hnm d
  exact docMatches_category cat hne hnm d

/-- C9 witness: the metacharacter-free equivalence applied concretely. -/
theorem C9_unescaped_category_pattern_witness :
    docMatches (buildFilter none (some "Misc")) xDoc = catFieldEqCI "Misc" xDoc :=
  C9_unescaped_category_pattern.2 "Misc" (by decide) (by decide) xDoc

/-- C2: seeding is idempotent — a store with a nonzero record count receives
zero insertions, an empty store receives exactly the five seed templates
that pass validation (all five do), and a second run inserts zero more. -/
theorem C2_seed_idempotent :
    (∀ (okFn : SeedTemplate → Bool) (coll : List Doc), coll ≠ [] →
        seed_products_on_startup okFn (some coll) = some coll) ∧
    ((seed_products_on_startup allOk (some [])).map List.length = some 5) ∧
    (∀ (okFn : SeedTemplate → Bool) (s : Option (List Doc)),
        seed_products_on_startup okFn (seed_products_on_startup okFn s) =
          seed_products_on_startup okFn s) := by
  refine ⟨?_, ?_, ?_⟩
  · intro okFn coll hne
    simp only [seed_products_on_startup]
    rw [if_neg (fun hl => hne (List.length_eq_zero.mp hl))]
  · simp [seed_products_on_startup, sample_products, seedLoop, seedItem, validateProduct,
          create_document, allOk]
    norm_num
  · intro okFn s
    cases s with
    | none => rfl
    | some coll =>
      by_cases hc : coll.length = 0
      · have hnil : coll = [] := List.length_eq_zero.mp hc
        subst hnil
        have hinner : seed_products_on_startup okFn (some []) =
            some (seedLoop okFn sample_products []) := by
          unfold seed_products_on_startup
          simp
        rw [hinner]
        by_cases hr : (seedLoop okFn sample_products []).length = 0
        · have hre : seedLoop okFn sample_products [] = [] := List.length_eq_zero.mp hr
          rw [hre, hinner, hre]
        · simp only [seed_products_on_startup]
          rw [if_neg hr]
      · simp [seed_products_on_startup, hc]

/-- C2 witness: a nonempty store is left untouched by the Seeder. -/
theorem C2_seed_idempotent_witness :
    seed_products_on_startup allOk (some [dummyDoc]) = some [dummyDoc] :=
  C2_seed_idempotent.1 allOk [dummyDoc] (by simp)

/-- C8: per-item seed failure recovery — a template whose validation or
insertion fails is skipped while every other template is still processed,
and the startup hook always returns normally on an available store. -/
theorem C8_per_item_recovery :
    (∀ (okFn : SeedTemplate → Bool) (pre post : List SeedTemplate)
        (t : SeedTemplate) (coll : List Doc),
        validateProduct t = false ∨ okFn t = false →
        seedLoop okFn (pre ++ t :: post) coll = seedLoop okFn (pre ++ post) coll) ∧
    (∀ (okFn : SeedTemplate → Bool) (coll : List Doc),
        ∃ r, seed_products_on_startup okFn (some coll) = some r) := by
  refine ⟨?_, ?_⟩
  · intro okFn pre post t coll hfail
    induction pre generalizing coll with
    | nil =>
      simp only [List.nil_append]
      have hskip : seedItem okFn coll t = coll := by
        rcases hfail with hf | hf
        · simp [seedItem, hf]
        · by_cases hv : validateProduct t
          · simp [seedItem, hv, create_document, hf]
          · simp [seedItem, hv]
      simp only [seedLoop, hskip]
    | cons p ps ih =>
      simp only [List.cons_append, seedLoop]
      exact ih (seedItem okFn coll p)
  · intro okFn coll
    by_cases hc : coll.length = 0
    · exact ⟨seedLoop okFn sample_products coll,
        by simp only [seed_products_on_startup]; rw [if_pos hc]⟩
    · exact ⟨coll, by simp only [seed_products_on_startup]; rw [if_neg hc]⟩

/-- C8 witness: a validation-rejected template between two good ones is
skipped and the rest of the batch still runs. -/
theorem C8_per_item_recovery_witness :
    seedLoop allOk ([goodSeedA] ++ badSeed :: [goodSeedB]) [] =
      seedLoop allOk ([goodSeedA] ++ [goodSeedB]) [] :=
  C8_per_item_recovery.1 allOk [goodSeedA] [goodSeedB] badSeed [] (Or.inl (by decide))

/-- C7 counterexample: a stored record with price -1 is serialized, passes
response validation, and is returned to the client with a negative price —
refuting "price is always a valid non-negative number" over all stored
records. -/
theorem C7_counterexample :
    list_products (some [negPriceDoc]) none none 24 = Except.ok [negPriceOut] ∧
    negPriceOut.price < 0 :=
  ⟨by rfl, by norm_num [negPriceOut]⟩

/-- C7 amended: every record in a successful response has its title drawn
from stored text (hence non-null, as is its string identifier) and a valid
numeric price; when every stored price is absent or non-negative, every
returned price is non-negative (a missing price coerces to 0.0). -/
theorem C7_amended_price_invariant (coll : List Doc) (q c : Option String)
    (limit : ℕ) (outs : List ProductOut)
    (hcoll : ∀ d ∈ coll, d.price = none ∨ ∃ r, d.price = some (Val.num r) ∧ 0 ≤ r)
    (h : list_products (some coll) q c limit = Except.ok outs) :
    ∀ o ∈ outs, 0 ≤ o.price ∧ ∃ d ∈ coll, d.title = some (Val.str o.title) := by
  intro o ho
  obtain ⟨d, hd, hsv⟩ := serializeAll_mem (list_products_ok h) ho
  obtain ⟨hdcoll, -⟩ := mem_get_documents hd
  obtain ⟨hti, -, -, hpnone, hpnum⟩ := serializeValidate_inv hsv
  refine ⟨?_, d, hdcoll, hti⟩
  rcases hcoll d hdcoll with hp | ⟨r, hp, hr⟩
  · rw [hpnone hp]
  · rw [hpnum r hp]
    exact hr

/-- C7 amended witness: the invariant applied at a concrete store. -/
theorem C7_amended_price_invariant_witness :
    0 ≤ elecOut.price ∧ ∃ d ∈ [elecDoc], d.title = some (Val.str elecOut.title) :=
  C7_amended_price_invariant [elecDoc] none none 24 [elecOut]
    (by
      intro d hd
      simp at hd
      subst hd
      exact Or.inr ⟨80, rfl, by norm_num⟩)
    (by rfl) elecOut (by simp)

end ShopCatalog
